import Mathlib

/-!
Verification of the sarabanda quiz-game core: character-pool filtering and
fingerprinting, the phase state machine and turn/scoring state updates, the
configuration team-resize logic, and the cross-tab storage channel.

JavaScript records (plain objects with unique string keys) are embedded as
association lists in enumeration order; object assignment `o[k] = v` replaces
the value in place when the key exists and appends otherwise.  JS numbers are
embedded as rationals, JS `Array.prototype.sort()` on strings as insertion
sort over the string order, and `Math.floor(Math.random() * n)` as an
arbitrary seed reduced modulo `n`.
-/

namespace Sarabanda

/-- JS object assignment `m[k] = v`: replace in place if the key is present,
otherwise append at the end. -/
def recordSet {α : Type} (m : List (String × α)) (k : String) (v : α) :
    List (String × α) :=
  if m.any (fun p => p.1 = k) then
    m.map (fun p => if p.1 = k then (k, v) else p)
  else
    m ++ [(k, v)]

/-- JS object spread `{...base, ...upd}` on unique-key records: every entry of
`upd` is assigned on top of `base`, in order. -/
def recordMerge {α : Type} (base upd : List (String × α)) :
    List (String × α) :=
  upd.foldl (fun acc p => recordSet acc p.1 p.2) base

/-- `String.toLowerCase` composed with `replace(/\s+/g, '_')`: each maximal
run of whitespace becomes a single underscore.  The boolean tracks whether
the previous character was part of a whitespace run. -/
def squashWhitespaceAux : Bool → List Char → List Char
  | _, [] => []
  | prevWs, c :: rest =>
    if c.isWhitespace then
      if prevWs then squashWhitespaceAux true rest
      else '_' :: squashWhitespaceAux true rest
    else c :: squashWhitespaceAux false rest

/-- `` `${...}`.toLowerCase().replace(/\s+/g, '_') `` as used by
`createCharacterId`. -/
def normalizeId (s : String) : String :=
  String.mk (squashWhitespaceAux false s.toLower.data)

namespace Tags

/-!
The tag-indexed variant of the character model (`gameHelpers` working over
characters with a `props` record and a multi-valued `tags` record, filtered by
`config.selectedTags`).
-/

/-- Character with dynamic `props` (key → string) and `tags`
(key → list of values). -/
structure Character where
  props : List (String × String)
  tags : List (String × List String)
deriving DecidableEq, Repr

/-- Tag-filter selection: tag key → accepted values, plus the parts of the
game state that `getAvailableCharacters` reads. -/
structure GameConfig where
  selectedTags : List (String × List String)
deriving DecidableEq, Repr

structure GameStatus where
  characters : List Character
  usedCharacters : List String
  config : GameConfig
deriving DecidableEq, Repr

/-- `matchesTagFilters(char, selectedTags)`: for each entry of the selection,
an empty value list imposes no constraint; otherwise some value of the
character under that key must be among the selected values. -/
def matchesTagFilters (char : Character) (selectedTags : List (String × List String)) : Bool :=
  selectedTags.all (fun kv =>
    if kv.2.length = 0 then true
    else
      let charTagValues := (char.tags.lookup kv.1).getD []
      charTagValues.any (fun charValue => kv.2.contains charValue))

/-- `createCharacterId(character)`: sorted prop values joined with sorted
`category` tag values, lowercased, whitespace collapsed to underscores. -/
def createCharacterId (character : Character) : String :=
  let propKeys := List.insertionSort (· ≤ ·) (character.props.map Prod.fst)
  let propValues := String.intercalate "_"
    (propKeys.map (fun key => (character.props.lookup key).getD ""))
  let categories := String.intercalate "_"
    (List.insertionSort (· ≤ ·) ((character.tags.lookup "category").getD []))
  normalizeId (propValues ++ "_" ++ categories)

/-- `getAvailableCharacters(state)`: unused characters matching the current
tag filters. -/
def getAvailableCharacters (state : GameStatus) : List Character :=
  state.characters.filter (fun char =>
    !(state.usedCharacters.contains (createCharacterId char)) &&
    matchesTagFilters char state.config.selectedTags)

/-- One row of the `getCategories` report. -/
structure CategoryInfo where
  name : String
  remainingCharacters : Nat
  totalCharacters : Nat
deriving DecidableEq, Repr

/-- First loop of `getCategories`: each available character bumps both
counters for every one of its category values. -/
def countRemaining (chars : List Character)
    (m : List (String × Nat × Nat)) : List (String × Nat × Nat) :=
  chars.foldl (fun m char =>
    ((char.tags.lookup "category").getD []).foldl (fun m category =>
      let existing := (m.lookup category).getD (0, 0)
      recordSet m category (existing.1 + 1, existing.2 + 1)) m) m

/-- Second loop of `getCategories`: every filter-matching character (used or
not) bumps the total counter for every one of its category values. -/
def countTotal (state : GameStatus)
    (m : List (String × Nat × Nat)) : List (String × Nat × Nat) :=
  state.characters.foldl (fun m char =>
    if matchesTagFilters char state.config.selectedTags then
      ((char.tags.lookup "category").getD []).foldl (fun m category =>
        let existing := (m.lookup category).getD (0, 0)
        recordSet m category (existing.1, existing.2 + 1)) m
    else m) m

/-- `getCategories(state)`: remaining-vs-total counts per category value,
in first-encounter order (JS `Map` insertion order). -/
def getCategories (state : GameStatus) : List CategoryInfo :=
  let availableChars := getAvailableCharacters state
  let categoryMap := countTotal state (countRemaining availableChars [])
  categoryMap.map (fun p =>
    { name := p.1, remainingCharacters := p.2.1, totalCharacters := p.2.2 })

end Tags

/-!
## Core data model (`types.ts`) and state machine (`stateUpdates`)

The canonical variant: characters carry a single `category` and `difficulty`
and filtering is by `selectedDifficulties` / `selectedCategories`.
-/

inductive GamePhase where
  | prepping
  | choosing
  | guessing
  | stopping
deriving DecidableEq, Repr

inductive TurnType where
  | team
  | freeForAll
deriving DecidableEq, Repr

structure Character where
  props : List (String × String)
  category : String
  difficulty : String
  image_url : String
deriving DecidableEq, Repr

structure GameConfig where
  googleSheetUrl : String
  numberOfRounds : Nat
  freeTurnDuration : ℚ
  nthTurnDurations : List ℚ
  teamNames : List String
  selectedDifficulties : List String
  selectedCategories : List String
  freeTurnScore : ℚ
  nthTurnScores : List ℚ
deriving DecidableEq, Repr

structure RoundResult where
  round : Nat
  category : String
  character : Character
  scores : List (String × ℚ)
  hintsUsed : Nat
deriving DecidableEq, Repr

structure GameStatus where
  phase : GamePhase
  config : GameConfig
  characters : List Character
  usedCharacters : List String
  currentRound : Nat
  currentCategory : Option String
  currentCharacter : Option Character
  scores : List (String × ℚ)
  gameHistory : List RoundResult
  isGameActive : Bool
  isTimerRunning : Bool
  timeRemaining : ℚ
  timerEndsAt : Option ℚ
  hintsRevealed : Nat
  currentTurn : Nat
  currentTeamIndex : Option Nat
  turnType : TurnType
deriving DecidableEq, Repr

/-- `createCharacterId(character)` (single-category variant): sorted prop
values joined, then the category, lowercased, whitespace collapsed. -/
def createCharacterId (character : Character) : String :=
  let propKeys := List.insertionSort (· ≤ ·) (character.props.map Prod.fst)
  let propValues := String.intercalate "_"
    (propKeys.map (fun key => (character.props.lookup key).getD ""))
  normalizeId (propValues ++ "_" ++ character.category)

/-- `getAvailableCharacters(state)`: unused characters whose difficulty and
category are both selected. -/
def getAvailableCharacters (state : GameStatus) : List Character :=
  state.characters.filter (fun char =>
    !(state.usedCharacters.contains (createCharacterId char)) &&
    state.config.selectedDifficulties.contains char.difficulty &&
    state.config.selectedCategories.contains char.category)

def updateConfig (state : GameStatus) (config : GameConfig) : GameStatus :=
  { state with config := config }

def updateCharacters (state : GameStatus) (characters : List Character) : GameStatus :=
  { state with characters := characters }

/-- `rollCharacterForRound(state)`: a random available character, `none` when
none are available.  `Math.floor(Math.random() * n)` is embedded as an
arbitrary `seed` reduced modulo the number of available characters. -/
def rollCharacterForRound (seed : Nat) (state : GameStatus) : Option Character :=
  let availableCharacters := getAvailableCharacters state
  if availableCharacters.length = 0 then none
  else availableCharacters.get? (seed % availableCharacters.length)

/-- `teamNames.reduce((acc, team) => { acc[team] = 0; return acc; }, {})`. -/
def initialScores (teamNames : List String) : List (String × ℚ) :=
  teamNames.foldl (fun acc team => recordSet acc team 0) []

/-- The per-phase initialization inside `transitionToChoosing`: starting from
`prepping` resets scores/history, coming from `guessing` bumps the round. -/
def initRoundState (state : GameStatus) : GameStatus :=
  if state.phase = GamePhase.prepping then
    { state with
      isGameActive := true
      currentRound := 1
      scores := initialScores state.config.teamNames
      gameHistory := []
      hintsRevealed := 0 }
  else if state.phase = GamePhase.guessing then
    { state with currentRound := state.currentRound + 1 }
  else state

/-- `transitionToChoosing(state)`: guarded transition into `choosing` that
rolls a character; returns the input state unchanged when any guard fails. -/
def transitionToChoosing (seed : Nat) (state : GameStatus) : GameStatus :=
  if state.characters.length = 0 then state
  else if state.config.selectedDifficulties.length = 0 ∨
          state.config.selectedCategories.length = 0 then state
  else
    let newState := initRoundState state
    match rollCharacterForRound seed newState with
    | none => state
    | some rolledCharacter =>
      { newState with
        phase := GamePhase.choosing
        currentCharacter := some rolledCharacter
        currentCategory := some rolledCharacter.category }

/-- `transitionToGuessing(state)`: confirm the rolled character. -/
def transitionToGuessing (state : GameStatus) : GameStatus :=
  if state.phase ≠ GamePhase.choosing ∨ state.currentCharacter = none then state
  else { state with phase := GamePhase.guessing }

/-- `rerollCharacter(state)`: replace the rolled character while `choosing`. -/
def rerollCharacter (seed : Nat) (state : GameStatus) : GameStatus :=
  if state.phase ≠ GamePhase.choosing then state
  else
    match rollCharacterForRound seed state with
    | none => state
    | some rolledCharacter =>
      { state with
        currentCharacter := some rolledCharacter
        currentCategory := some rolledCharacter.category }

/-- `startGame(state)`: start from `prepping` via `transitionToChoosing`. -/
def startGame (seed : Nat) (state : GameStatus) : GameStatus :=
  if state.phase ≠ GamePhase.prepping then state
  else transitionToChoosing seed state

def endGame (state : GameStatus) : GameStatus :=
  { state with
    phase := GamePhase.prepping
    isGameActive := false
    isTimerRunning := false
    currentCharacter := none
    currentCategory := none }

def setCurrentRound (state : GameStatus) (round : Nat) : GameStatus :=
  { state with currentRound := round }

def setCurrentCategory (state : GameStatus) (category : Option String) : GameStatus :=
  { state with currentCategory := category }

def setCurrentCharacter (state : GameStatus) (character : Option Character) : GameStatus :=
  { state with currentCharacter := character }

def updateScores (state : GameStatus) (scores : List (String × ℚ)) : GameStatus :=
  { state with scores := recordMerge state.scores scores }

def addRoundResult (state : GameStatus) (result : RoundResult) : GameStatus :=
  { state with gameHistory := state.gameHistory ++ [result] }

def markCharacterUsed (state : GameStatus) (characterId : String) : GameStatus :=
  if !(state.usedCharacters.contains characterId) then
    { state with usedCharacters := state.usedCharacters ++ [characterId] }
  else state

def setTimerRunning (state : GameStatus) (running : Bool) : GameStatus :=
  { state with isTimerRunning := running }

def setTimeRemaining (state : GameStatus) (time : ℚ) : GameStatus :=
  { state with timeRemaining := time }

def setHintsRevealed (state : GameStatus) (hints : Nat) : GameStatus :=
  { state with hintsRevealed := hints }

def setPhase (state : GameStatus) (phase : GamePhase) : GameStatus :=
  { state with phase := phase }

/-- `transitionToPrepping(state)`: the explicit reset back to `prepping`. -/
def transitionToPrepping (state : GameStatus) : GameStatus :=
  { state with
    phase := GamePhase.prepping
    usedCharacters := []
    currentRound := 0
    currentCategory := none
    currentCharacter := none
    scores := []
    gameHistory := []
    isGameActive := false
    isTimerRunning := false
    timeRemaining := 0
    hintsRevealed := 0 }

/-!
## Operator-screen handlers (`RemoteScreen`) and configuration dialog
-/

/-- The outcome of parsing a score text input: the empty string, a numeric
value (`parseFloat` succeeded), or a non-numeric string (`NaN`). -/
inductive ScoreInput where
  | empty
  | numeric (q : ℚ)
  | nonNumeric
deriving DecidableEq, Repr

/-- `roundResult.scores[teamName] || 0` summed over the history with
`reduce(..., 0)`. -/
def teamHistoryTotal (gameHistory : List RoundResult) (teamName : String) : ℚ :=
  gameHistory.foldl (fun sum roundResult =>
    sum + ((roundResult.scores.lookup teamName).getD 0)) 0

/-- The state update performed by `handleScoreChange` once the input passed
validation: patch the matching round's per-team score and recompute every
team's total from the updated history. -/
def applyScoreEdit (config : GameConfig) (round : Nat) (team : String)
    (numValue : ℚ) (state : GameStatus) : GameStatus :=
  let updatedGameHistory := state.gameHistory.map (fun roundResult =>
    if roundResult.round = round then
      { roundResult with scores := recordSet roundResult.scores team numValue }
    else roundResult)
  let newScores := config.teamNames.foldl (fun acc teamName =>
    recordSet acc teamName (teamHistoryTotal updatedGameHistory teamName)) []
  { state with gameHistory := updatedGameHistory, scores := newScores }

/-- `handleScoreChange(round, team, value)`: empty input counts as 0,
non-numeric or negative input is rejected leaving the state unchanged. -/
def handleScoreChange (config : GameConfig) (round : Nat) (team : String)
    (value : ScoreInput) (state : GameStatus) : GameStatus :=
  match value with
  | ScoreInput.empty => applyScoreEdit config round team 0 state
  | ScoreInput.nonNumeric => state
  | ScoreInput.numeric q =>
    if q < 0 then state else applyScoreEdit config round team q state

/-- The `currentCharacterMatchesFilters` check guarding the Confirm button:
a non-null current character whose difficulty and category are selected. -/
def currentCharacterMatchesFilters (config : GameConfig) (state : GameStatus) : Bool :=
  match state.currentCharacter with
  | none => false
  | some c =>
    config.selectedDifficulties.contains c.difficulty &&
    config.selectedCategories.contains c.category

/-- Pressing Confirm: the button is enabled only in `choosing` phase with a
filter-matching character, and the handler calls `transitionToGuessing`. -/
def confirmCharacter (config : GameConfig) (state : GameStatus) : GameStatus :=
  if state.phase = GamePhase.choosing ∧
     currentCharacterMatchesFilters config state = true then
    transitionToGuessing state
  else state

/-- The team-resize effect of the configuration dialog: growing appends
generated team names, turn scores fixed at 0.5, and turn durations copied
from the last configured duration (60 when there was none); shrinking
truncates all three lists.  The `getD 60` fallback is unreachable whenever
`nthTurnDurations` is at least as long as `teamNames` (JS would index out of
bounds there). -/
def resizeTeams (numberOfTeams : Nat) (prev : GameConfig) : GameConfig :=
  let currentTeamCount := prev.teamNames.length
  if numberOfTeams = currentTeamCount then prev
  else if currentTeamCount < numberOfTeams then
    let newTeams := (List.range (numberOfTeams - currentTeamCount)).map
      (fun i => "Team " ++ toString (currentTeamCount + i + 1))
    let newTurnScores := List.replicate (numberOfTeams - currentTeamCount) ((1 : ℚ)/2)
    let defaultDuration :=
      if 0 < currentTeamCount then prev.nthTurnDurations.getD (currentTeamCount - 1) 60
      else 60
    let newTurnDurations := List.replicate (numberOfTeams - currentTeamCount) defaultDuration
    { prev with
      teamNames := prev.teamNames ++ newTeams
      nthTurnDurations := prev.nthTurnDurations ++ newTurnDurations
      nthTurnScores := prev.nthTurnScores ++ newTurnScores }
  else
    { prev with
      teamNames := prev.teamNames.take numberOfTeams
      nthTurnDurations := prev.nthTurnDurations.take numberOfTeams
      nthTurnScores := prev.nthTurnScores.take numberOfTeams }

/-!
## Storage channel (`StorageProvider`)
-/

/-- One named storage slot as seen by a provider: the read-only flag of the
handle, the persisted serialized content (`none` when the key is absent),
and the in-memory value. -/
structure Channel (V : Type) where
  readOnly : Bool
  persisted : Option String
  memory : Option V

/-- `update(newValue)`: refused with a logged warning on a read-only handle;
skipped when the serialized value equals the persisted content; otherwise
sets the in-memory value and persists the serialization.  Returns the new
channel together with the warnings written to the console. -/
def Channel.update {V : Type} (serialize : V → String) (ch : Channel V)
    (newValue : V) : Channel V × List String :=
  if ch.readOnly then
    (ch, ["Attempted to update read-only storage key"])
  else
    let newValueString := serialize newValue
    if ch.persisted = some newValueString then (ch, [])
    else ({ ch with memory := some newValue, persisted := some newValueString }, [])

/-!
## Operation sequences over the game state
-/

/-- The state-update operations of the core module, with roll randomness made
explicit as a seed. -/
inductive Op where
  | updateConfig (config : GameConfig)
  | updateCharacters (characters : List Character)
  | startGame (seed : Nat)
  | transitionToChoosing (seed : Nat)
  | transitionToGuessing
  | rerollCharacter (seed : Nat)
  | endGame
  | setCurrentRound (round : Nat)
  | setCurrentCategory (category : Option String)
  | setCurrentCharacter (character : Option Character)
  | updateScores (scores : List (String × ℚ))
  | addRoundResult (result : RoundResult)
  | markCharacterUsed (characterId : String)
  | setTimerRunning (running : Bool)
  | setTimeRemaining (time : ℚ)
  | setHintsRevealed (hints : Nat)
  | setPhase (phase : GamePhase)
  | transitionToPrepping
deriving DecidableEq, Repr

/-- Whether the operation is the explicit reset. -/
def Op.isReset : Op → Bool
  | Op.transitionToPrepping => true
  | _ => false

def applyOp (op : Op) (state : GameStatus) : GameStatus :=
  match op with
  | Op.updateConfig config => updateConfig state config
  | Op.updateCharacters characters => updateCharacters state characters
  | Op.startGame seed => startGame seed state
  | Op.transitionToChoosing seed => transitionToChoosing seed state
  | Op.transitionToGuessing => transitionToGuessing state
  | Op.rerollCharacter seed => rerollCharacter seed state
  | Op.endGame => endGame state
  | Op.setCurrentRound round => setCurrentRound state round
  | Op.setCurrentCategory category => setCurrentCategory state category
  | Op.setCurrentCharacter character => setCurrentCharacter state character
  | Op.updateScores scores => updateScores state scores
  | Op.addRoundResult result => addRoundResult state result
  | Op.markCharacterUsed characterId => markCharacterUsed state characterId
  | Op.setTimerRunning running => setTimerRunning state running
  | Op.setTimeRemaining time => setTimeRemaining state time
  | Op.setHintsRevealed hints => setHintsRevealed state hints
  | Op.setPhase phase => setPhase state phase
  | Op.transitionToPrepping => transitionToPrepping state

def applyOps (ops : List Op) (state : GameStatus) : GameStatus :=
  ops.foldl (fun s op => applyOp op s) state

/-!
## Concrete instances used to exercise the theorems
-/

/-- A neutral game configuration. -/
def baseConfig : GameConfig where
  googleSheetUrl := ""
  numberOfRounds := 3
  freeTurnDuration := 30
  nthTurnDurations := [60, 60]
  teamNames := ["Team 1", "Team 2"]
  selectedDifficulties := ["easy"]
  selectedCategories := ["movies"]
  freeTurnScore := 1
  nthTurnScores := [1, 1]

/-- A neutral game state in `prepping` phase. -/
def baseStatus : GameStatus where
  phase := GamePhase.prepping
  config := baseConfig
  characters := []
  usedCharacters := []
  currentRound := 0
  currentCategory := none
  currentCharacter := none
  scores := []
  gameHistory := []
  isGameActive := false
  isTimerRunning := false
  timeRemaining := 0
  timerEndsAt := none
  hintsRevealed := 0
  currentTurn := 0
  currentTeamIndex := none
  turnType := TurnType.team

/-- A character whose difficulty is not among `baseConfig`'s selections. -/
def unavailableChar : Character where
  props := [("given_names", "Ada")]
  category := "movies"
  difficulty := "hard"
  image_url := ""

/-- A character matching `baseConfig`'s selections. -/
def availableChar : Character where
  props := [("given_names", "Ada")]
  category := "movies"
  difficulty := "easy"
  image_url := ""

/-- Prepping state whose only character is filtered out. -/
def noAvailableStatus : GameStatus :=
  { baseStatus with characters := [unavailableChar] }

/-- Prepping state with one available character. -/
def oneAvailableStatus : GameStatus :=
  { baseStatus with characters := [availableChar] }

/-- Choosing state holding a filter-matching current character. -/
def choosingStatus : GameStatus :=
  { baseStatus with
    phase := GamePhase.choosing
    characters := [availableChar]
    currentCharacter := some availableChar
    currentCategory := some "movies" }

/-- A state with one used fingerprint and one recorded round. -/
def playedStatus : GameStatus :=
  { baseStatus with
    usedCharacters := ["ada_movies"]
    scores := [("Team 1", 1), ("Team 2", 0)]
    gameHistory :=
      [{ round := 1
         category := "movies"
         character := availableChar
         scores := [("Team 1", 1), ("Team 2", 0)]
         hintsUsed := 0 }] }

/-- Tag-variant character holding a single `category` value. -/
def charA : Tags.Character where
  props := []
  tags := [("category", ["a"])]

/-- Tag-variant state: one unused matching character, no filters. -/
def singletonTagStatus : Tags.GameStatus where
  characters := [charA]
  usedCharacters := []
  config := { selectedTags := [] }

/-- Tag-variant character with two props and two category values. -/
def permChar1 : Tags.Character where
  props := [("given_names", "Ada"), ("family_names", "Lovelace")]
  tags := [("category", ["science", "math"])]

/-- `permChar1` with prop entries and category values re-ordered. -/
def permChar2 : Tags.Character where
  props := [("family_names", "Lovelace"), ("given_names", "Ada")]
  tags := [("category", ["math", "science"])]

/-- Read-only channel handle instance. -/
def roChannel : Channel Nat where
  readOnly := true
  persisted := some "9"
  memory := some 9

/-- Writable channel handle whose persisted content matches a re-written value. -/
def rwChannel : Channel Nat where
  readOnly := false
  persisted := some "7"
  memory := some 7

/-- Config with two teams whose last turn score is 3 (not the 0.5 default). -/
def growConfig : GameConfig :=
  { baseConfig with
    teamNames := ["Alpha", "Beta"]
    nthTurnDurations := [45, 50]
    nthTurnScores := [2, 3] }

/-- Config for the shrink scenario: four teams. -/
def shrinkConfig : GameConfig :=
  { baseConfig with
    teamNames := ["A", "B", "C", "D"]
    nthTurnDurations := [10, 20, 30, 40]
    nthTurnScores := [1, 2, 3, 4] }

/-!
## Lemmas about record updates and lookups
-/

theorem lookup_cons {α : Type} (k : String) (v : α) (es : List (String × α)) (a : String) :
    List.lookup a ((k, v) :: es) = if a == k then some v else List.lookup a es := by
  cases h : a == k <;> simp [List.lookup, h]

theorem lookup_map_set_of_any {α : Type} (m : List (String × α)) (k : String) (v : α)
    (h : m.any (fun p => p.1 = k) = true) :
    List.lookup k (m.map (fun p => if p.1 = k then (k, v) else p)) = some v := by
  induction m with
  | nil => simp at h
  | cons p rest ih =>
    rcases p with ⟨pk, pv⟩
    by_cases hp : pk = k
    · simp only [List.map_cons]
      rw [if_pos (show (pk, pv).1 = k from hp), lookup_cons, if_pos (beq_self_eq_true k)]
    · have h' : rest.any (fun p => p.1 = k) = true := by
        rcases List.any_eq_true.mp h with ⟨x, hx, hpx⟩
        rcases List.mem_cons.mp hx with rfl | hx'
        · exact absurd (of_decide_eq_true hpx) hp
        · exact List.any_eq_true.mpr ⟨x, hx', hpx⟩
      simp only [List.map_cons]
      rw [if_neg (show ¬ (pk, pv).1 = k from hp), lookup_cons,
        if_neg (by simp; exact fun hk => hp hk.symm), ih h']

theorem lookup_map_set_ne {α : Type} (m : List (String × α)) {k k' : String}
    (h : k' ≠ k) (v : α) :
    List.lookup k' (m.map (fun p => if p.1 = k then (k, v) else p)) = List.lookup k' m := by
  induction m with
  | nil => rfl
  | cons p rest ih =>
    rcases p with ⟨pk, pv⟩
    by_cases hp : pk = k
    · simp only [List.map_cons]
      rw [if_pos (show (pk, pv).1 = k from hp), lookup_cons,
        if_neg (by simp; exact h), lookup_cons,
        if_neg (by simp; intro hk; exact h (hk.trans hp)), ih]
    · simp only [List.map_cons]
      rw [if_neg (show ¬ (pk, pv).1 = k from hp), lookup_cons, lookup_cons, ih]

theorem lookup_append_key_absent {α : Type} (m l : List (String × α)) (k : String)
    (h : m.any (fun p => p.1 = k) = false) :
    List.lookup k (m ++ l) = List.lookup k l := by
  induction m with
  | nil => rfl
  | cons p rest ih =>
    rcases p with ⟨pk, pv⟩
    simp only [List.any_cons, Bool.or_eq_false_iff] at h
    have hpk : pk ≠ k := by simpa using h.1
    rw [List.cons_append, lookup_cons, if_neg (by simp; exact fun hk => hpk hk.symm)]
    exact ih h.2

theorem lookup_recordSet_self {α : Type} (m : List (String × α)) (k : String) (v : α) :
    List.lookup k (recordSet m k v) = some v := by
  unfold recordSet
  split
  · exact lookup_map_set_of_any m k v (by assumption)
  · rw [lookup_append_key_absent m [(k, v)] k (Bool.eq_false_iff.mpr (by assumption)),
      lookup_cons, if_pos (beq_self_eq_true k)]

theorem lookup_append_single_ne {α : Type} (m : List (String × α)) {k k' : String}
    (h : k' ≠ k) (v : α) :
    List.lookup k' (m ++ [(k, v)]) = List.lookup k' m := by
  induction m with
  | nil =>
    rw [List.nil_append, lookup_cons, if_neg (by simp; exact h)]
  | cons p rest ih =>
    rcases p with ⟨pk, pv⟩
    rw [List.cons_append, lookup_cons, lookup_cons]
    cases hk : k' == pk <;> simp [ih]

theorem lookup_recordSet_ne {α : Type} (m : List (String × α)) {k k' : String}
    (h : k' ≠ k) (v : α) :
    List.lookup k' (recordSet m k v) = List.lookup k' m := by
  unfold recordSet
  split
  · exact lookup_map_set_ne m h v
  · exact lookup_append_single_ne m h v

theorem lookup_foldl_recordSet_not_mem {α : Type} (f : String → α) (teams : List String)
    (init : List (String × α)) (t : String) (ht : t ∉ teams) :
    List.lookup t (teams.foldl (fun acc name => recordSet acc name (f name)) init) =
      List.lookup t init := by
  induction teams generalizing init with
  | nil => rfl
  | cons name rest ih =>
    have h1 : t ≠ name := fun h => ht (h ▸ List.mem_cons_self name rest)
    have h2 : t ∉ rest := fun h => ht (List.mem_cons_of_mem name h)
    rw [List.foldl_cons, ih _ h2, lookup_recordSet_ne _ h1]

theorem lookup_foldl_recordSet {α : Type} (f : String → α) (teams : List String)
    (init : List (String × α)) (t : String) (ht : t ∈ teams) :
    List.lookup t (teams.foldl (fun acc name => recordSet acc name (f name)) init) =
      some (f t) := by
  induction teams generalizing init with
  | nil => cases ht
  | cons name rest ih =>
    rw [List.foldl_cons]
    by_cases hmem : t ∈ rest
    · exact ih _ hmem
    · have heq : t = name := by
        rcases List.mem_cons.mp ht with h | h
        · exact h
        · exact absurd h hmem
      subst heq
      rw [lookup_foldl_recordSet_not_mem _ _ _ _ hmem, lookup_recordSet_self]

theorem lookup_perm {α : Type} {l₁ l₂ : List (String × α)} (p : List.Perm l₁ l₂)
    (nd : (l₁.map Prod.fst).Nodup) (k : String) :
    List.lookup k l₁ = List.lookup k l₂ := by
  induction p with
  | nil => rfl
  | cons x p ih =>
    rcases x with ⟨xk, xv⟩
    simp only [List.map_cons, List.nodup_cons] at nd
    rw [lookup_cons, lookup_cons]
    cases hk : k == xk
    · simp only [hk, Bool.false_eq_true, if_false]
      exact ih nd.2
    · simp
  | swap x y l =>
    rcases x with ⟨xk, xv⟩
    rcases y with ⟨yk, yv⟩
    have hxy : yk ≠ xk := by
      simp only [List.map_cons, List.nodup_cons, List.mem_cons] at nd
      exact fun h => nd.1 (Or.inl h)
    rw [lookup_cons, lookup_cons, lookup_cons, lookup_cons]
    cases hx : k == xk <;> cases hy : k == yk <;> simp [hx, hy]
    exact absurd ((eq_of_beq hy).symm.trans (eq_of_beq hx)) hxy
  | trans p₁ p₂ ih₁ ih₂ =>
    have nd₂ := ((p₁.map Prod.fst).nodup_iff).mp nd
    rw [ih₁ nd, ih₂ nd₂]

/-- Two permuted string lists sort to the same list. -/
theorem insertionSort_eq_of_perm {l₁ l₂ : List String} (p : List.Perm l₁ l₂) :
    List.insertionSort (· ≤ ·) l₁ = List.insertionSort (· ≤ ·) l₂ :=
  List.eq_of_perm_of_sorted
    ((List.perm_insertionSort _ l₁).trans (p.trans (List.perm_insertionSort _ l₂).symm))
    (List.sorted_insertionSort _ l₁) (List.sorted_insertionSort _ l₂)

/-!
## Lemmas about the state machine
-/

theorem initRoundState_fields (st : GameStatus) :
    (initRoundState st).characters = st.characters ∧
    (initRoundState st).usedCharacters = st.usedCharacters ∧
    (initRoundState st).config = st.config := by
  unfold initRoundState
  split
  · exact ⟨rfl, rfl, rfl⟩
  · split
    · exact ⟨rfl, rfl, rfl⟩
    · exact ⟨rfl, rfl, rfl⟩

theorem getAvailableCharacters_congr (s₁ s₂ : GameStatus)
    (hc : s₁.characters = s₂.characters) (hu : s₁.usedCharacters = s₂.usedCharacters)
    (hcf : s₁.config = s₂.config) :
    getAvailableCharacters s₁ = getAvailableCharacters s₂ := by
  unfold getAvailableCharacters
  rw [hc, hu, hcf]

theorem getAvailableCharacters_initRoundState (st : GameStatus) :
    getAvailableCharacters (initRoundState st) = getAvailableCharacters st :=
  getAvailableCharacters_congr _ _ (initRoundState_fields st).1
    (initRoundState_fields st).2.1 (initRoundState_fields st).2.2

theorem rollCharacterForRound_mem {seed : Nat} {st : GameStatus} {c : Character}
    (h : rollCharacterForRound seed st = some c) :
    c ∈ getAvailableCharacters st := by
  simp only [rollCharacterForRound] at h
  split at h
  · cases h
  · exact List.get?_mem h

theorem mem_getAvailableCharacters {c : Character} {st : GameStatus}
    (h : c ∈ getAvailableCharacters st) :
    c ∈ st.characters ∧ createCharacterId c ∉ st.usedCharacters ∧
    c.difficulty ∈ st.config.selectedDifficulties ∧
    c.category ∈ st.config.selectedCategories := by
  unfold getAvailableCharacters at h
  rw [List.mem_filter] at h
  have h2 := h.2
  simp only [Bool.and_eq_true, Bool.not_eq_true'] at h2
  refine ⟨h.1, ?_, ?_, ?_⟩
  · intro hmem
    cases (List.elem_iff.mpr hmem).symm.trans h2.1.1
  · exact List.elem_iff.mp h2.1.2
  · exact List.elem_iff.mp h2.2

theorem transitionToChoosing_cases (seed : Nat) (st : GameStatus) :
    transitionToChoosing seed st = st ∨
    ∃ c, rollCharacterForRound seed (initRoundState st) = some c ∧
      transitionToChoosing seed st =
        { initRoundState st with
          phase := GamePhase.choosing
          currentCharacter := some c
          currentCategory := some c.category } := by
  by_cases h1 : st.characters.length = 0
  · left; simp [transitionToChoosing, h1]
  by_cases h2 : st.config.selectedDifficulties.length = 0 ∨
      st.config.selectedCategories.length = 0
  · left; simp only [transitionToChoosing, if_neg h1, if_pos h2]
  cases hroll : rollCharacterForRound seed (initRoundState st) with
  | none => left; simp only [transitionToChoosing, if_neg h1, if_neg h2, hroll]
  | some c =>
    right
    exact ⟨c, rfl, by simp only [transitionToChoosing, if_neg h1, if_neg h2, hroll]⟩

theorem transitionToChoosing_usedCharacters (seed : Nat) (st : GameStatus) :
    (transitionToChoosing seed st).usedCharacters = st.usedCharacters := by
  rcases transitionToChoosing_cases seed st with h | ⟨c, -, h⟩
  · rw [h]
  · rw [h]
    exact (initRoundState_fields st).2.1

theorem rerollCharacter_usedCharacters (seed : Nat) (st : GameStatus) :
    (rerollCharacter seed st).usedCharacters = st.usedCharacters := by
  unfold rerollCharacter
  split
  · rfl
  · split
    · rfl
    · rfl

theorem startGame_usedCharacters (seed : Nat) (st : GameStatus) :
    (startGame seed st).usedCharacters = st.usedCharacters := by
  unfold startGame
  split
  · rfl
  · exact transitionToChoosing_usedCharacters seed st

theorem applyOp_usedCharacters_mono (op : Op) (st : GameStatus)
    (h : op.isReset = false) :
    ∀ id ∈ st.usedCharacters, id ∈ (applyOp op st).usedCharacters := by
  intro id hid
  cases op with
  | startGame seed => rw [applyOp, startGame_usedCharacters]; exact hid
  | transitionToChoosing seed =>
    rw [applyOp, transitionToChoosing_usedCharacters]; exact hid
  | rerollCharacter seed => rw [applyOp, rerollCharacter_usedCharacters]; exact hid
  | transitionToGuessing =>
    rw [applyOp]; unfold transitionToGuessing; split <;> exact hid
  | markCharacterUsed cid =>
    rw [applyOp]; unfold markCharacterUsed
    split
    · exact List.mem_append_left _ hid
    · exact hid
  | transitionToPrepping => simp [Op.isReset] at h
  | updateConfig c => exact hid
  | updateCharacters cs => exact hid
  | endGame => exact hid
  | setCurrentRound r => exact hid
  | setCurrentCategory c => exact hid
  | setCurrentCharacter c => exact hid
  | updateScores s => exact hid
  | addRoundResult r => exact hid
  | setTimerRunning b => exact hid
  | setTimeRemaining t => exact hid
  | setHintsRevealed n => exact hid
  | setPhase p => exact hid

/-!
## Claim theorems
-/


theorem applyOps_cons (op : Op) (rest : List Op) (st : GameStatus) :
    applyOps (op :: rest) st = applyOps rest (applyOp op st) := rfl

/-- C1: the filter match predicate returns true iff, for every tag key of the
selection with a non-empty accepted-value set, at least one of the character's
values for that key is in that set (AND across keys, OR within a key); keys
with an empty selection impose no constraint, and a character with no values
for a filtered key never matches. -/
theorem C1_matchesTagFilters_iff (char : Tags.Character)
    (selectedTags : List (String × List String)) :
    (Tags.matchesTagFilters char selectedTags = true ↔
      ∀ kv ∈ selectedTags, kv.2 ≠ [] →
        ∃ v ∈ (char.tags.lookup kv.1).getD [], v ∈ kv.2) ∧
    (∀ kv ∈ selectedTags, kv.2 ≠ [] → (char.tags.lookup kv.1).getD [] = [] →
      Tags.matchesTagFilters char selectedTags = false) := by
  have hiff : Tags.matchesTagFilters char selectedTags = true ↔
      ∀ kv ∈ selectedTags, kv.2 ≠ [] →
        ∃ v ∈ (char.tags.lookup kv.1).getD [], v ∈ kv.2 := by
    simp only [Tags.matchesTagFilters, List.all_eq_true]
    constructor
    · intro h kv hkv hne
      have h2 := h kv hkv
      rw [if_neg (by simpa [List.length_eq_zero] using hne)] at h2
      simpa [List.any_eq_true, List.elem_iff] using h2
    · intro h kv hkv
      by_cases hne : kv.2 = []
      · simp [List.length_eq_zero, hne]
      · rw [if_neg (by simpa [List.length_eq_zero] using hne)]
        simpa [List.any_eq_true, List.elem_iff] using h kv hkv hne
  refine ⟨hiff, ?_⟩
  intro kv hkv hne hempty
  cases hb : Tags.matchesTagFilters char selectedTags
  · rfl
  · rcases hiff.mp hb kv hkv hne with ⟨v, hv, -⟩
    rw [hempty] at hv
    cases hv

/-- C1 witness: a concrete character matching a concrete one-key selection. -/
theorem C1_witness :
    Tags.matchesTagFilters permChar1 [("category", ["math"])] = true :=
  (C1_matchesTagFilters_iff permChar1 [("category", ["math"])]).1.mpr (by decide)

/-- C2: in phase `prepping`, when no character is available under the current
filters, `startGame` is refused: the state is returned unchanged and the phase
is still `prepping`. -/
theorem C2_startGame_refused (seed : Nat) (st : GameStatus)
    (hphase : st.phase = GamePhase.prepping)
    (hav : getAvailableCharacters st = []) :
    startGame seed st = st ∧ (startGame seed st).phase = GamePhase.prepping := by
  have hroll : rollCharacterForRound seed (initRoundState st) = none := by
    simp [rollCharacterForRound, getAvailableCharacters_initRoundState, hav]
  have hmain : startGame seed st = st := by
    rcases transitionToChoosing_cases seed st with h | ⟨c, hc, -⟩
    · unfold startGame
      split
      · rfl
      · exact h
    · rw [hroll] at hc; cases hc
  exact ⟨hmain, by rw [hmain, hphase]⟩

/-- C2 witness: a concrete prepping state with an empty available pool on
which `startGame` is refused. -/
theorem C2_witness :
    noAvailableStatus.phase = GamePhase.prepping ∧
    getAvailableCharacters noAvailableStatus = [] ∧
    startGame 0 noAvailableStatus = noAvailableStatus :=
  ⟨rfl, by decide, (C2_startGame_refused 0 noAvailableStatus rfl (by decide)).1⟩

/-- C4: across any sequence of core operations not containing the explicit
reset, `usedCharacters` only grows; `markCharacterUsed` adds an id only when
absent and is the identity otherwise; `endGame` preserves the set; only
`transitionToPrepping` clears it. -/
theorem C4_usedCharacters_monotone :
    (∀ (ops : List Op) (st : GameStatus),
        (∀ op ∈ ops, op.isReset = false) →
        ∀ id ∈ st.usedCharacters, id ∈ (applyOps ops st).usedCharacters) ∧
    (∀ (st : GameStatus) (characterId : String),
        characterId ∈ st.usedCharacters → markCharacterUsed st characterId = st) ∧
    (∀ (st : GameStatus) (characterId : String),
        characterId ∉ st.usedCharacters →
        (markCharacterUsed st characterId).usedCharacters =
          st.usedCharacters ++ [characterId]) ∧
    (∀ st : GameStatus, (endGame st).usedCharacters = st.usedCharacters) ∧
    (∀ st : GameStatus, (transitionToPrepping st).usedCharacters = []) := by
  refine ⟨?_, ?_, ?_, fun _ => rfl, fun _ => rfl⟩
  · intro ops
    induction ops with
    | nil => intro st h id hid; exact hid
    | cons op rest ih =>
      intro st h id hid
      rw [applyOps_cons]
      exact ih (applyOp op st) (fun o ho => h o (List.mem_cons_of_mem _ ho))
        id (applyOp_usedCharacters_mono op st (h op (List.mem_cons_self _ _)) id hid)
  · intro st cid hmem
    have hel : st.usedCharacters.contains cid = true := List.elem_iff.mpr hmem
    unfold markCharacterUsed
    rw [hel]
    simp
  · intro st cid hmem
    have hel : st.usedCharacters.contains cid = false := by
      cases hc : st.usedCharacters.contains cid
      · rfl
      · exact absurd (List.elem_iff.mp hc) hmem
    unfold markCharacterUsed
    rw [hel]
    simp

/-- C4 witness: a used fingerprint survives a concrete reset-free operation
sequence containing `endGame`. -/
theorem C4_witness :
    "ada_movies" ∈
      (applyOps [Op.endGame, Op.transitionToGuessing] playedStatus).usedCharacters :=
  C4_usedCharacters_monotone.1 [Op.endGame, Op.transitionToGuessing] playedStatus
    (by decide) "ada_movies" (by decide)

/-- C6: from phase `choosing`, the Confirm action moves to `guessing` exactly
when the current character is non-null and still matches the active filters;
when the character no longer matches, the action leaves the state unchanged. -/
theorem C6_confirm_requires_matching (config : GameConfig) (st : GameStatus)
    (hphase : st.phase = GamePhase.choosing) :
    ((confirmCharacter config st).phase = GamePhase.guessing ↔
      ∃ c, st.currentCharacter = some c ∧
        c.difficulty ∈ config.selectedDifficulties ∧
        c.category ∈ config.selectedCategories) ∧
    (currentCharacterMatchesFilters config st = false →
      confirmCharacter config st = st) := by
  cases hcc : st.currentCharacter with
  | none =>
    have hm : currentCharacterMatchesFilters config st = false := by
      unfold currentCharacterMatchesFilters
      rw [hcc]
    have hconf : confirmCharacter config st = st := by
      unfold confirmCharacter
      rw [if_neg]
      rintro ⟨-, h2⟩
      rw [hm] at h2
      cases h2
    refine ⟨?_, fun _ => hconf⟩
    rw [hconf, hphase]
    constructor
    · intro h; exact absurd h (by decide)
    · rintro ⟨c, hc, -⟩; cases hc
  | some c =>
    by_cases hd : c.difficulty ∈ config.selectedDifficulties ∧
        c.category ∈ config.selectedCategories
    · have hm : currentCharacterMatchesFilters config st = true := by
        unfold currentCharacterMatchesFilters
        rw [hcc]
        simpa [List.elem_iff] using hd
      have hconf : confirmCharacter config st = { st with phase := GamePhase.guessing } := by
        unfold confirmCharacter
        rw [if_pos ⟨hphase, hm⟩]
        unfold transitionToGuessing
        rw [if_neg (by simp [hphase, hcc])]
      refine ⟨?_, ?_⟩
      · rw [hconf]
        exact ⟨fun _ => ⟨c, rfl, hd.1, hd.2⟩, fun _ => rfl⟩
      · intro hmf; rw [hmf] at hm; cases hm
    · have hm : currentCharacterMatchesFilters config st = false := by
        unfold currentCharacterMatchesFilters
        rw [hcc]
        show (config.selectedDifficulties.contains c.difficulty &&
          config.selectedCategories.contains c.category) = false
        cases hb : (config.selectedDifficulties.contains c.difficulty &&
            config.selectedCategories.contains c.category)
        · rfl
        · simp only [Bool.and_eq_true] at hb
          exact absurd ⟨List.elem_iff.mp hb.1, List.elem_iff.mp hb.2⟩ hd
      have hconf : confirmCharacter config st = st := by
        unfold confirmCharacter
        rw [if_neg]
        rintro ⟨-, h2⟩
        rw [hm] at h2
        cases h2
      refine ⟨?_, fun _ => hconf⟩
      rw [hconf, hphase]
      constructor
      · intro h; exact absurd h (by decide)
      · rintro ⟨c', hc', hd1, hd2⟩
        injection hc' with hc'
        subst hc'
        exact absurd ⟨hd1, hd2⟩ hd

/-- C6 witness: confirming a concrete matching character reaches phase
`guessing`. -/
theorem C6_witness :
    (confirmCharacter baseConfig choosingStatus).phase = GamePhase.guessing :=
  (C6_confirm_requires_matching baseConfig choosingStatus rfl).1.mpr
    ⟨availableChar, rfl, by decide, by decide⟩

/-- C9: a write through a read-only channel handle is a silent no-op that
logs a warning and modifies neither the persisted value nor the in-memory
value; a write through a writable handle whose serialized value equals the
persisted content performs no write at all. -/
theorem C9_update_guards {V : Type} (serialize : V → String) (ch : Channel V) (v : V) :
    (ch.readOnly = true →
      (Channel.update serialize ch v).1.persisted = ch.persisted ∧
      (Channel.update serialize ch v).1.memory = ch.memory ∧
      (Channel.update serialize ch v).2 ≠ []) ∧
    (ch.readOnly = false → ch.persisted = some (serialize v) →
      Channel.update serialize ch v = (ch, [])) := by
  constructor
  · intro h
    refine ⟨?_, ?_, ?_⟩ <;> simp [Channel.update, h]
  · intro h hp
    simp [Channel.update, h, hp]

/-- C9 witness: concrete read-only and equal-content writes are no-ops. -/
theorem C9_witness :
    ((Channel.update toString roChannel 9).1.persisted = roChannel.persisted ∧
      (Channel.update toString roChannel 9).1.memory = roChannel.memory ∧
      (Channel.update toString roChannel 9).2 ≠ []) ∧
    Channel.update toString rwChannel 7 = (rwChannel, []) :=
  ⟨(C9_update_guards toString roChannel 9).1 rfl,
   (C9_update_guards toString rwChannel 7).2 rfl rfl⟩

/-- C3: for a valid (numeric, non-negative) edit value, `handleScoreChange`
patches the matching round's per-team score in the stored history and
recomputes every team's total as the sum of that team's contributions across
the whole history (never by incrementing); non-numeric or negative input
leaves the state unchanged. -/
theorem C3_handleScoreChange_spec (config : GameConfig) (round : Nat) (team : String)
    (st : GameStatus) :
    (∀ q : ℚ, 0 ≤ q →
      (handleScoreChange config round team (ScoreInput.numeric q) st).gameHistory =
        st.gameHistory.map (fun rr =>
          if rr.round = round then { rr with scores := recordSet rr.scores team q }
          else rr) ∧
      ∀ t ∈ config.teamNames,
        List.lookup t (handleScoreChange config round team (ScoreInput.numeric q) st).scores =
          some (teamHistoryTotal
            (handleScoreChange config round team (ScoreInput.numeric q) st).gameHistory t)) ∧
    (handleScoreChange config round team ScoreInput.nonNumeric st = st) ∧
    (∀ q : ℚ, q < 0 →
      handleScoreChange config round team (ScoreInput.numeric q) st = st) := by
  refine ⟨?_, rfl, ?_⟩
  · intro q hq
    have heq : handleScoreChange config round team (ScoreInput.numeric q) st =
        applyScoreEdit config round team q st := by
      simp [handleScoreChange, not_lt.mpr hq]
    rw [heq]
    refine ⟨rfl, ?_⟩
    intro t ht
    have sc : (applyScoreEdit config round team q st).scores =
        config.teamNames.foldl (fun acc teamName => recordSet acc teamName
          (teamHistoryTotal ((applyScoreEdit config round team q st).gameHistory) teamName))
          [] := rfl
    rw [sc]
    exact lookup_foldl_recordSet
      (fun name => teamHistoryTotal (applyScoreEdit config round team q st).gameHistory name)
      config.teamNames [] t ht
  · intro q hq
    simp [handleScoreChange, hq]

/-- C3 witness: the decimal value 0.5 is accepted on a concrete state and the
recomputed totals are sums over the updated history. -/
theorem C3_witness :
    (handleScoreChange baseConfig 1 "Team 1" (ScoreInput.numeric (1/2))
        playedStatus).gameHistory =
      playedStatus.gameHistory.map (fun rr =>
        if rr.round = 1 then { rr with scores := recordSet rr.scores "Team 1" (1/2) }
        else rr) ∧
    List.lookup "Team 1"
        (handleScoreChange baseConfig 1 "Team 1" (ScoreInput.numeric (1/2))
          playedStatus).scores =
      some (teamHistoryTotal
        (handleScoreChange baseConfig 1 "Team 1" (ScoreInput.numeric (1/2))
          playedStatus).gameHistory "Team 1") :=
  ⟨((C3_handleScoreChange_spec baseConfig 1 "Team 1" playedStatus).1 (1/2) (by norm_num)).1,
   ((C3_handleScoreChange_spec baseConfig 1 "Team 1" playedStatus).1 (1/2)
      (by norm_num)).2 "Team 1" (by decide)⟩

/-- C5: the fingerprint `createCharacterId` is invariant under any
re-ordering of the character's prop entries and (in the tag-indexed variant)
any re-ordering of its category-tag values, because keys and category values
are sorted internally. -/
theorem C5_createCharacterId_perm_invariant :
    (∀ c₁ c₂ : Tags.Character,
        List.Perm c₁.props c₂.props →
        (c₁.props.map Prod.fst).Nodup →
        List.Perm ((c₁.tags.lookup "category").getD [])
          ((c₂.tags.lookup "category").getD []) →
        Tags.createCharacterId c₁ = Tags.createCharacterId c₂) ∧
    (∀ c₁ c₂ : Character,
        List.Perm c₁.props c₂.props →
        (c₁.props.map Prod.fst).Nodup →
        c₁.category = c₂.category →
        createCharacterId c₁ = createCharacterId c₂) := by
  constructor
  · intro c₁ c₂ hp nd hcat
    simp only [Tags.createCharacterId]
    rw [insertionSort_eq_of_perm (hp.map Prod.fst), insertionSort_eq_of_perm hcat,
      List.map_congr_left (fun k _ => by rw [lookup_perm hp nd k])]
  · intro c₁ c₂ hp nd hcat
    simp only [createCharacterId]
    rw [insertionSort_eq_of_perm (hp.map Prod.fst), hcat,
      List.map_congr_left (fun k _ => by rw [lookup_perm hp nd k])]

/-- C5 witness: two concrete characters differing only in prop and category
order have the same fingerprint. -/
theorem C5_witness :
    Tags.createCharacterId permChar1 = Tags.createCharacterId permChar2 :=
  C5_createCharacterId_perm_invariant.1 permChar1 permChar2
    (by decide) (by decide) (by decide)

/-- C8: on a pool with one unused matching character in category "a",
`getCategories` reports `totalCharacters = 2` although only one matching
character exists — the available characters are counted into the total twice,
contradicting the documented remaining-vs-total semantics. -/
theorem C8_getCategories_double_counts :
    Tags.getCategories singletonTagStatus =
      [{ name := "a", remainingCharacters := 1, totalCharacters := 2 }] ∧
    (singletonTagStatus.characters.filter (fun c =>
      Tags.matchesTagFilters c singletonTagStatus.config.selectedTags)).length = 1 :=
  ⟨by decide, by decide⟩

/-- C10: whenever a roll succeeds (`transitionToChoosing` or
`rerollCharacter` returns a changed state), the rolled character is drawn from
the available set: it is non-null, its fingerprint is unused, it matches the
active filter selection, and `currentCategory` equals its category;
`startGame` defers to `transitionToChoosing`. -/
theorem C10_roll_success_invariants :
    (∀ (seed : Nat) (st : GameStatus), transitionToChoosing seed st ≠ st →
      ∃ c, c ∈ getAvailableCharacters st ∧
        (transitionToChoosing seed st).currentCharacter = some c ∧
        createCharacterId c ∉ st.usedCharacters ∧
        c.difficulty ∈ st.config.selectedDifficulties ∧
        c.category ∈ st.config.selectedCategories ∧
        (transitionToChoosing seed st).currentCategory = some c.category) ∧
    (∀ (seed : Nat) (st : GameStatus), rerollCharacter seed st ≠ st →
      ∃ c, c ∈ getAvailableCharacters st ∧
        (rerollCharacter seed st).currentCharacter = some c ∧
        createCharacterId c ∉ st.usedCharacters ∧
        c.difficulty ∈ st.config.selectedDifficulties ∧
        c.category ∈ st.config.selectedCategories ∧
        (rerollCharacter seed st).currentCategory = some c.category) ∧
    (∀ (seed : Nat) (st : GameStatus),
      startGame seed st = st ∨ startGame seed st = transitionToChoosing seed st) := by
  refine ⟨?_, ?_, ?_⟩
  · intro seed st hne
    rcases transitionToChoosing_cases seed st with h | ⟨c, hroll, h⟩
    · exact absurd h hne
    · have hmem : c ∈ getAvailableCharacters st := by
        have hm := rollCharacterForRound_mem hroll
        rwa [getAvailableCharacters_initRoundState] at hm
      rcases mem_getAvailableCharacters hmem with ⟨-, hused, hdiff, hcat⟩
      exact ⟨c, hmem, by rw [h], hused, hdiff, hcat, by rw [h]⟩
  · intro seed st hne
    by_cases hph : st.phase = GamePhase.choosing
    · cases hroll : rollCharacterForRound seed st with
      | none =>
        exfalso
        apply hne
        simp [rerollCharacter, hph, hroll]
      | some c =>
        have h : rerollCharacter seed st =
            { st with currentCharacter := some c, currentCategory := some c.category } := by
          simp [rerollCharacter, hph, hroll]
        have hmem := rollCharacterForRound_mem hroll
        rcases mem_getAvailableCharacters hmem with ⟨-, hused, hdiff, hcat⟩
        exact ⟨c, hmem, by rw [h], hused, hdiff, hcat, by rw [h]⟩
    · exfalso
      apply hne
      simp [rerollCharacter, hph]
  · intro seed st
    unfold startGame
    split
    · exact Or.inl rfl
    · exact Or.inr rfl

/-- C10 witness: a successful concrete roll satisfies all the rolled-state
invariants. -/
theorem C10_witness :
    ∃ c, c ∈ getAvailableCharacters oneAvailableStatus ∧
      (transitionToChoosing 0 oneAvailableStatus).currentCharacter = some c ∧
      createCharacterId c ∉ oneAvailableStatus.usedCharacters ∧
      c.difficulty ∈ oneAvailableStatus.config.selectedDifficulties ∧
      c.category ∈ oneAvailableStatus.config.selectedCategories ∧
      (transitionToChoosing 0 oneAvailableStatus).currentCategory = some c.category :=
  C10_roll_success_invariants.1 0 oneAvailableStatus (by decide)

/-- C7 counterexample: growing the team list pads `nthTurnScores` with the
fixed default 0.5, not with the last known score (3 here). -/
theorem C7_counterexample :
    growConfig.nthTurnScores.getLast? = some 3 ∧
    (resizeTeams 3 growConfig).nthTurnScores = [2, 3, 1/2] ∧
    ((1 : ℚ)/2 ≠ 3) := by
  refine ⟨rfl, by rfl, by norm_num⟩

/-- C7 (amended): resizing keeps `teamNames`/`nthTurnDurations`/
`nthTurnScores` in lockstep at the new length; shrinking truncates preserving
the prefix; growing pads durations with the last known duration (60 when the
list was empty) and pads scores with the fixed default 0.5. -/
theorem C7_resizeTeams_lockstep (cfg : GameConfig) (n : Nat)
    (hd : cfg.nthTurnDurations.length = cfg.teamNames.length)
    (hs : cfg.nthTurnScores.length = cfg.teamNames.length) :
    ((resizeTeams n cfg).teamNames.length = n ∧
      (resizeTeams n cfg).nthTurnDurations.length = n ∧
      (resizeTeams n cfg).nthTurnScores.length = n) ∧
    (n ≤ cfg.teamNames.length →
      (resizeTeams n cfg).teamNames = cfg.teamNames.take n ∧
      (resizeTeams n cfg).nthTurnDurations = cfg.nthTurnDurations.take n ∧
      (resizeTeams n cfg).nthTurnScores = cfg.nthTurnScores.take n) ∧
    (cfg.teamNames.length < n →
      (resizeTeams n cfg).nthTurnDurations =
        cfg.nthTurnDurations ++
          List.replicate (n - cfg.teamNames.length) (cfg.nthTurnDurations.getLastD 60) ∧
      (resizeTeams n cfg).nthTurnScores =
        cfg.nthTurnScores ++ List.replicate (n - cfg.teamNames.length) ((1 : ℚ)/2)) := by
  by_cases heq : n = cfg.teamNames.length
  · have hres : resizeTeams n cfg = cfg := by
      simp [resizeTeams, heq]
    rw [hres]
    refine ⟨⟨heq.symm, by omega, by omega⟩, ?_, ?_⟩
    · intro
      subst heq
      refine ⟨(List.take_length _).symm, ?_, ?_⟩
      · rw [← hd]
        exact (List.take_length _).symm
      · rw [← hs]
        exact (List.take_length _).symm
    · intro hlt
      omega
  · by_cases hlt : cfg.teamNames.length < n
    · have hres : resizeTeams n cfg =
          { cfg with
            teamNames := cfg.teamNames ++
              (List.range (n - cfg.teamNames.length)).map
                (fun i => "Team " ++ toString (cfg.teamNames.length + i + 1))
            nthTurnDurations := cfg.nthTurnDurations ++
              List.replicate (n - cfg.teamNames.length)
                (if 0 < cfg.teamNames.length then
                  cfg.nthTurnDurations.getD (cfg.teamNames.length - 1) 60
                else 60)
            nthTurnScores := cfg.nthTurnScores ++
              List.replicate (n - cfg.teamNames.length) ((1 : ℚ)/2) } := by
        simp only [resizeTeams, if_neg heq, if_pos hlt]
      have hdef : (if 0 < cfg.teamNames.length then
            cfg.nthTurnDurations.getD (cfg.teamNames.length - 1) 60
          else 60) = cfg.nthTurnDurations.getLastD 60 := by
        by_cases hcur : 0 < cfg.teamNames.length
        · rw [if_pos hcur, List.getD_eq_getElem?_getD, List.getLastD_eq_getLast?,
            List.getLast?_eq_getElem?, hd]
        · rw [if_neg hcur]
          have hnil : cfg.nthTurnDurations = [] :=
            List.length_eq_zero.mp (by omega)
          rw [hnil]
          rfl
      rw [hres]
      refine ⟨⟨?_, ?_, ?_⟩, ?_, ?_⟩
      · simp only [List.length_append, List.length_map, List.length_range]
        omega
      · simp only [List.length_append, List.length_replicate]
        omega
      · simp only [List.length_append, List.length_replicate]
        omega
      · intro hle
        omega
      · intro
        exact ⟨by rw [hdef], rfl⟩
    · have hlt2 : n < cfg.teamNames.length := by omega
      have hres : resizeTeams n cfg =
          { cfg with
            teamNames := cfg.teamNames.take n
            nthTurnDurations := cfg.nthTurnDurations.take n
            nthTurnScores := cfg.nthTurnScores.take n } := by
        simp only [resizeTeams, if_neg heq, if_neg (by omega : ¬ cfg.teamNames.length < n)]
      rw [hres]
      refine ⟨⟨?_, ?_, ?_⟩, ?_, ?_⟩
      · simp only [List.length_take]
        omega
      · simp only [List.length_take]
        omega
      · simp only [List.length_take]
        omega
      · intro
        exact ⟨rfl, rfl, rfl⟩
      · intro hgt
        omega

/-- C7 witness: shrinking a concrete four-team config to two teams preserves
the first two entries of all three lists. -/
theorem C7_witness :
    (resizeTeams 2 shrinkConfig).teamNames = shrinkConfig.teamNames.take 2 ∧
    (resizeTeams 2 shrinkConfig).nthTurnDurations = shrinkConfig.nthTurnDurations.take 2 ∧
    (resizeTeams 2 shrinkConfig).nthTurnScores = shrinkConfig.nthTurnScores.take 2 :=
  (C7_resizeTeams_lockstep shrinkConfig 2 (by decide) (by decide)).2.1 (by decide)


end Sarabanda
